import Mathlib

/-!
Verification development for the forklift HTTP routing middleware.

The definitions below are a shallow embedding of the routing engine:

* `forklift.go` — the priority/percentage selector (`selectBackend`,
  `shouldApplyPercentage`), rule matching (`ruleMatches`, `checkConditions`,
  `checkHeader`, `checkQuery`, `checkCookie`, `checkForm`, `compareValues`,
  `parseFloats`), proxy URL construction (`constructBackendURL`), the session
  machinery (`generateSessionID`, `isValidSessionID`, `getOrCreateSessionID`)
  and construction (`NewForklift`).
* `part_008` (an earlier revision of the same middleware kept in the
  repository) — the grouped, cumulative-range weighted selector
  (`V2.selectBackend`, `V2.selectBackendFromRanges`, `V2.calculateHash`) and
  its multi-valued header check (`V2.checkHeader`).

Modelling conventions: Go `float64` percentages and hash fractions are
modelled by exact rationals `ℚ` (the claims under study do not hinge on
IEEE-754 rounding); machine integers are `Nat` with explicit `% 2 ^ 32` /
`% 2 ^ 64`; Go standard-library functions that the middleware calls
(`strings.*`, `strconv.ParseFloat`, `encoding/base64`, `hash/fnv`,
`sort.Slice`) are modelled by their documented semantics, and — for the
stability question about `sort.Slice` — additionally by a faithful
embedding of Go 1.23's pattern-defeating quicksort (`GoSort`).
-/

/-- UTF-8 encoding of one character. -/
def utf8Bytes (c : Char) : List Nat :=
  let n := c.toNat
  if n < 0x80 then [n]
  else if n < 0x800 then [0xC0 + n / 64, 0x80 + n % 64]
  else if n < 0x10000 then [0xE0 + n / 4096, 0x80 + (n / 64) % 64, 0x80 + n % 64]
  else [0xF0 + n / 262144, 0x80 + (n / 4096) % 64, 0x80 + (n / 64) % 64, 0x80 + n % 64]

/-- UTF-8 bytes of a string, as the Go runtime sees a `string`. -/
def strBytes (s : String) : List Nat :=
  s.data.flatMap utf8Bytes

/-- Model of Go `strings.ToLower` (per character; the middleware only
lowercases ASCII operator names and header values). -/
def goToLower (s : String) : String :=
  ⟨s.data.map Char.toLower⟩

/-- Model of Go `strings.HasPrefix(s, pre)`. -/
def goHasPrefix (s pre : String) : Bool :=
  pre.data.isPrefixOf s.data

/-- Model of Go `strings.HasSuffix(s, suf)`. -/
def goHasSuffix (s suf : String) : Bool :=
  suf.data.isSuffixOf s.data

/-- Lexicographic comparison of character lists by code point. -/
def charListLe : List Char → List Char → Bool
  | [], _ => true
  | _ :: _, [] => false
  | a :: as, b :: bs =>
    if a.toNat < b.toNat then true
    else if b.toNat < a.toNat then false
    else charListLe as bs

/-- Model of the string ordering of Go `sort.Strings` (lexicographic; Go
compares UTF-8 bytes, which agrees with code-point order). -/
def goStrLe (a b : String) : Bool :=
  charListLe a.data b.data

/-- FNV-1a 32-bit hash of a byte sequence (Go `hash/fnv.New32a` then `Write`
then `Sum32`). -/
def fnv1a32 (bytes : List Nat) : Nat :=
  bytes.foldl (fun h b => ((h ^^^ b) * 16777619) % 2 ^ 32) 2166136261

/-- One `Write` call on a Go `hash/fnv.New64a` state. -/
def fnv64Write (h : Nat) (bytes : List Nat) : Nat :=
  bytes.foldl (fun h b => ((h ^^^ b) * 1099511628211) % 2 ^ 64) h

/-- FNV-1a 64-bit hash of a byte sequence (Go `hash/fnv.New64a`). -/
def fnv1a64 (bytes : List Nat) : Nat :=
  fnv64Write 14695981039346656037 bytes

/-- Space test used by Go `strings.TrimSpace` (`unicode.IsSpace`), restricted
to the Latin-1 range that is relevant for header values. -/
def isGoSpace (c : Char) : Bool :=
  c = ' ' || c = '\t' || c = '\n' || c.toNat = 11 || c.toNat = 12 || c = '\r' ||
    c.toNat = 0x85 || c.toNat = 0xA0

/-- Model of Go `strings.TrimSpace`. -/
def goTrimSpace (s : String) : String :=
  ⟨((s.data.dropWhile isGoSpace).reverse.dropWhile isGoSpace).reverse⟩

/-- Decimal digit test (Go `unicode.IsDigit` on ASCII). -/
def isDigitCh (c : Char) : Bool :=
  '0' ≤ c && c ≤ '9'

/-- Numeric value of a list of decimal digits. -/
def digitsVal (cs : List Char) : Nat :=
  cs.foldl (fun acc c => acc * 10 + (c.toNat - '0'.toNat)) 0

/-- Modelled from Go `strconv.ParseFloat(s, 64)`: the decimal forms
`[+-]? digits [. digits]? ([eE] [+-]? digits)?` with at least one mantissa
digit, evaluated exactly in `ℚ` (hexadecimal floats, `inf`/`nan`, digit
underscores and IEEE-754 rounding/overflow are outside the fragment the
middleware's claims exercise).  `none` models a parse error. -/
def goParseFloat (s : String) : Option ℚ :=
  let cs := s.data
  let signAndRest : ℚ × List Char :=
    match cs with
    | '+' :: t => (1, t)
    | '-' :: t => (-1, t)
    | t => (1, t)
  let sign := signAndRest.1
  let cs0 := signAndRest.2
  let intDigits := cs0.takeWhile isDigitCh
  let cs1 := cs0.dropWhile isDigitCh
  let fracAndRest : List Char × List Char :=
    match cs1 with
    | '.' :: t => (t.takeWhile isDigitCh, t.dropWhile isDigitCh)
    | t => ([], t)
  let fracDigits := fracAndRest.1
  let cs2 := fracAndRest.2
  if intDigits = [] ∧ fracDigits = [] then none
  else
    let mant : ℚ := sign * (digitsVal (intDigits ++ fracDigits) : ℚ) / 10 ^ fracDigits.length
    match cs2 with
    | [] => some mant
    | e :: t =>
      if e = 'e' ∨ e = 'E' then
        let esignAndRest : Int × List Char :=
          match t with
          | '+' :: u => (1, u)
          | '-' :: u => (-1, u)
          | u => (1, u)
        let eDigits := esignAndRest.2.takeWhile isDigitCh
        if eDigits = [] ∨ esignAndRest.2.dropWhile isDigitCh ≠ [] then none
        else some (mant * (10 : ℚ) ^ (esignAndRest.1 * (digitsVal eDigits : Int)))
      else none

/-- Model of `parseFloats` (forklift.go:603): both strings are parsed with
`strconv.ParseFloat` and the error is discarded, so a string that fails to
parse contributes Go's zero value `0`. -/
def parseFloats (s1 s2 : String) : ℚ × ℚ :=
  ((goParseFloat s1).getD 0, (goParseFloat s2).getD 0)

/-- Model of `compareValues` (forklift.go:584): operator dispatch is
case-insensitive; `eq`/`equals` is string equality, `contains` substring,
`prefix`/`suffix` use Go `strings.HasPrefix`/`HasSuffix`, `gt` compares the
`parseFloats` results, and unknown operators yield `false`. -/
def compareValues (actual operator expected : String) : Bool :=
  match goToLower operator with
  | "eq" => actual == expected
  | "equals" => actual == expected
  | "contains" => decide (expected.data <:+: actual.data)
  | "prefix" => goHasPrefix actual expected
  | "suffix" => goHasSuffix actual expected
  | "gt" =>
    let p := parseFloats actual expected
    decide (p.1 > p.2)
  | _ => false

/-- Condition record (config.RuleCondition).  The Go field `Type` is called
`CondType` here because `Type` is reserved in Lean. -/
structure RuleCondition where
  CondType : String
  Parameter : String
  QueryParam : String
  Operator : String
  Value : String
  deriving DecidableEq, Repr

/-- Routing rule record (config.RoutingRule).  The `AffinityToken` field is
declared in the configuration revision that accompanies the grouped selector
(it is read at part_008:333); the current `forklift.go` engine ignores it. -/
structure RoutingRule where
  Path : String
  PathPrefix : String
  Method : String
  Conditions : List RuleCondition
  Backend : String
  Percentage : ℚ
  Priority : Int
  PathPrefixRewrite : String
  AffinityToken : String
  deriving DecidableEq, Repr

instance : Inhabited RoutingRule :=
  ⟨{ Path := "", PathPrefix := "", Method := "", Conditions := [], Backend := "",
     Percentage := 0, Priority := 0, PathPrefixRewrite := "", AffinityToken := "" }⟩

/-- Middleware configuration (config.Config). -/
structure Config where
  DefaultBackend : String
  Rules : List RoutingRule
  Debug : Bool
  deriving DecidableEq, Repr

/-- The request attributes the routing engine reads.  `headerValues` models
`req.Header.Values` (all values of a canonicalised header name, in order);
`cookies` models the ordered cookie list of the request; `queryGet` models
`req.URL.Query().Get`; `formGet` models `req.PostFormValue` after
`req.ParseForm`, with `none` standing for a form-parse error; `RawQuery` is
the request URL's raw query string. -/
structure Request where
  Method : String
  Path : String
  RawQuery : String
  headerValues : String → List String
  cookies : List (String × String)
  queryGet : String → String
  formGet : Option (String → String)

/-- Model of Go `req.Header.Get`: the first value of the header, or `""`. -/
def headerGet (req : Request) (key : String) : String :=
  ((req.headerValues key).headD "")

/-- Model of `checkHeader` (forklift.go:540): only the first header value is
read (`req.Header.Get`); both sides are lowercased, not trimmed. -/
def checkHeader (req : Request) (condition : RuleCondition) : Bool :=
  compareValues (goToLower (headerGet req condition.Parameter)) condition.Operator
    (goToLower condition.Value)

/-- Model of `checkQuery` (forklift.go:553). -/
def checkQuery (req : Request) (condition : RuleCondition) : Bool :=
  compareValues (req.queryGet condition.QueryParam) condition.Operator condition.Value

/-- Model of `checkCookie` (forklift.go:566): the first cookie with the
requested name is compared; a missing cookie yields `false`. -/
def checkCookie (req : Request) (condition : RuleCondition) : Bool :=
  match req.cookies.find? (fun c => c.1 = condition.Parameter) with
  | none => false
  | some c => compareValues c.2 condition.Operator condition.Value

/-- Model of `checkForm` (forklift.go:524): a form-parse error yields
`false`, otherwise the posted form value is compared. -/
def checkForm (req : Request) (condition : RuleCondition) : Bool :=
  match req.formGet with
  | none => false
  | some f => compareValues (f condition.Parameter) condition.Operator condition.Value

/-- Model of `checkCondition` (forklift.go:504): dispatch on the
lower-cased condition type; unknown types yield `false` (with a warning). -/
def checkCondition (req : Request) (condition : RuleCondition) : Bool :=
  match goToLower condition.CondType with
  | "header" => checkHeader req condition
  | "query" => checkQuery req condition
  | "cookie" => checkCookie req condition
  | "form" => checkForm req condition
  | _ => false

/-- Model of `checkConditions` (forklift.go:494): all conditions must hold. -/
def checkConditions (req : Request) (conditions : List RuleCondition) : Bool :=
  conditions.all (fun c => checkCondition req c)

/-- Model of `ruleMatches` (forklift.go:454): exact path, path-prefix and
method gates, then the conditions. -/
def ruleMatches (req : Request) (rule : RoutingRule) : Bool :=
  if rule.Path ≠ "" ∧ rule.Path ≠ req.Path then false
  else if rule.PathPrefix ≠ "" ∧ ¬ goHasPrefix req.Path rule.PathPrefix then false
  else if rule.Method ≠ "" ∧ rule.Method ≠ req.Method then false
  else if rule.Conditions = [] then true
  else checkConditions req rule.Conditions

/-- Model of `getMatchingRules` (forklift.go:277): the configured rules that
match the request, kept in the configured order. -/
def matchingRulesOf (cfg : Config) (req : Request) : List RoutingRule :=
  cfg.Rules.filter (fun rule => ruleMatches req rule)

/-- Model of `sort.Slice(rules, func(i, j) { return rules[i].Priority >
rules[j].Priority })` (forklift.go:134 and forklift.go:241) by the
documented contract of `sort.Slice`: the result is a permutation of the
input ordered by descending priority — here produced by an insertion sort
under the non-strict order `b.Priority ≤ a.Priority` that characterises the
sorted output.  `sort.Slice` is documented as *not* stable; the faithful
algorithmic embedding of Go 1.23's pattern-defeating quicksort is
`GoSort.sortSlice` below and settles the stability-sensitive claim. -/
def sortRulesByPriority (rules : List RoutingRule) : List RoutingRule :=
  rules.insertionSort (fun a b => b.Priority ≤ a.Priority)

/-- Result of backend selection (`selectedBackend` struct, forklift.go:228). -/
structure SelectedBackend where
  Backend : String
  Rule : Option RoutingRule
  deriving DecidableEq, Repr

/-- Model of `shouldApplyPercentage` (forklift.go:261): FNV-1a 32-bit hash
of the session id, reduced mod 10000 and normalised to `[0, 1)`, compared
with `percentage / 100`. -/
def shouldApplyPercentage (sessionID : String) (percentage : ℚ) : Bool :=
  let hashValue := fnv1a32 (strBytes sessionID)
  let normalizedHash : ℚ := (hashValue % 10000 : Nat) / 10000
  decide (normalizedHash < percentage / 100)

/-- Loop body of `selectBackend` (forklift.go:246-255): walk the
priority-sorted matching rules; a rule with positive percentage is selected
when `shouldApplyPercentage` fires, a rule with zero (absent) percentage is
selected unconditionally; if the walk falls through, the default backend is
used. -/
def selectFromRules (dflt : String) (sessionID : String) :
    List RoutingRule → SelectedBackend
  | [] => { Backend := dflt, Rule := none }
  | rule :: rest =>
    if rule.Percentage > 0 then
      if shouldApplyPercentage sessionID rule.Percentage then
        { Backend := rule.Backend, Rule := some rule }
      else
        selectFromRules dflt sessionID rest
    else
      { Backend := rule.Backend, Rule := some rule }

/-- Model of `selectBackend` (forklift.go:233): collect matching rules,
return the default backend when none match, otherwise sort by descending
priority and walk them with `selectFromRules`. -/
def selectBackend (cfg : Config) (req : Request) (sessionID : String) :
    SelectedBackend :=
  let matchingRules := matchingRulesOf cfg req
  if matchingRules = [] then
    { Backend := cfg.DefaultBackend, Rule := none }
  else
    selectFromRules cfg.DefaultBackend sessionID (sortRulesByPriority matchingRules)

namespace V2

/-- Model of `checkHeader` (part_008:534): every value of the named header is
compared after lowercasing and trimming; the loop returns `true` as soon as
one value matches, i.e. the result is the OR over all header values. -/
def checkHeader (req : Request) (condition : RuleCondition) : Bool :=
  (req.headerValues condition.Parameter).any fun headerValue =>
    compareValues (goTrimSpace (goToLower headerValue)) condition.Operator
      (goTrimSpace (goToLower condition.Value))

/-- Model of `checkCondition` (part_008:498); only the header check differs
from the `forklift.go` engine. -/
def checkCondition (req : Request) (condition : RuleCondition) : Bool :=
  match goToLower condition.CondType with
  | "header" => V2.checkHeader req condition
  | "query" => checkQuery req condition
  | "cookie" => checkCookie req condition
  | "form" => checkForm req condition
  | _ => false

/-- Model of `checkConditions` (part_008:488). -/
def checkConditions (req : Request) (conditions : List RuleCondition) : Bool :=
  conditions.all (fun c => V2.checkCondition req c)

/-- Model of `matchPath` (part_008:450). -/
def matchPath (req : Request) (rule : RoutingRule) : Bool :=
  if rule.Path ≠ "" ∧ rule.Path ≠ req.Path then false
  else if rule.PathPrefix ≠ "" ∧ ¬ goHasPrefix req.Path rule.PathPrefix then false
  else true

/-- Model of `matchMethod` (part_008:465). -/
def matchMethod (req : Request) (rule : RoutingRule) : Bool :=
  ¬ (rule.Method ≠ "" ∧ rule.Method ≠ req.Method)

/-- Model of `matchConditions` (part_008:473). -/
def matchConditions (req : Request) (rule : RoutingRule) : Bool :=
  if rule.Conditions = [] then true else V2.checkConditions req rule.Conditions

/-- Model of `ruleMatches` (part_008:440). -/
def ruleMatches (req : Request) (rule : RoutingRule) : Bool :=
  V2.matchPath req rule && V2.matchMethod req rule && V2.matchConditions req rule

/-- Model of `getMatchingRules` (part_008:357). -/
def matchingRulesOf (cfg : Config) (req : Request) : List RoutingRule :=
  cfg.Rules.filter (fun rule => V2.ruleMatches req rule)

/-- The rules of one backend group (`backendRules[backend]`, part_008:232):
matching rules are appended to their backend's group in order. -/
def backendRules (matching : List RoutingRule) (backend : String) : List RoutingRule :=
  matching.filter (fun rule => rule.Backend = backend)

/-- Loop of part_008:240: walk a backend's rules accumulating percentages;
a rule with zero (absent) percentage forces the group total to 100 and
stops the walk. -/
def totalPercentageLoop (acc : ℚ) : List RoutingRule → ℚ
  | [] => acc
  | rule :: rest =>
    if rule.Percentage > 0 then totalPercentageLoop (acc + rule.Percentage) rest
    else 100

/-- Total percentage of one backend group (part_008:239-249). -/
def backendPercentage (matching : List RoutingRule) (backend : String) : ℚ :=
  totalPercentageLoop 0 (V2.backendRules matching backend)

/-- Model of `sortBackends` (part_008:275): the distinct backend names of
the matching rules, in ascending string order.  Go collects the map keys in
randomised order and then `sort.Strings`s them; since the keys are distinct
the result is the unique ascending ordering. -/
def backendKeysSorted (matching : List RoutingRule) : List String :=
  ((matching.map (fun r => r.Backend)).dedup).insertionSort
    (fun a b => goStrLe a b = true)

/-- Sum of all backend percentages (the `totalPercentage` loops at
part_008:287 and part_008:311; over `ℚ` the map-iteration order is
irrelevant). -/
def totalPercentage (matching : List RoutingRule) : ℚ :=
  (V2.backendKeysSorted matching).foldl
    (fun acc b => acc + V2.backendPercentage matching b) 0

/-- Running cumulative upper bounds over the sorted backends
(part_008:309-316). -/
def cumRangeList (matching : List RoutingRule) : List String → ℚ → List (String × ℚ)
  | [], _ => []
  | b :: bs, acc =>
    let upper := acc + V2.backendPercentage matching b
    (b, upper) :: V2.cumRangeList matching bs upper

/-- Model of `createCumulativeRanges` (part_008:309): cumulative upper
bounds per backend, rescaled by `100 / total` when the total exceeds 100. -/
def createCumulativeRanges (matching : List RoutingRule) : List (String × ℚ) :=
  let raw := V2.cumRangeList matching (V2.backendKeysSorted matching) 0
  let total := V2.totalPercentage matching
  if total > 100 then raw.map (fun p => (p.1, p.2 * (100 / total))) else raw

/-- Lookup in the cumulative-range association list (`cumulativeRanges[b]`;
a missing key reads Go's zero value `0`). -/
def rangeOf (ranges : List (String × ℚ)) (backend : String) : ℚ :=
  ((ranges.find? (fun p => p.1 = backend)).map Prod.snd).getD 0

/-- Model of `calculateHash` (part_008:328): FNV-1a 64-bit over the session
id, then per matching rule either its affinity token or its
path‖method‖backend; the digest is normalised to `[0, 100]` (the Go code
divides `float64(h.Sum64())` by `float64(^uint64(0))`; here the division is
exact). -/
def calculateHash (sessionID : String) (matching : List RoutingRule) : ℚ :=
  let h0 := fnv64Write 14695981039346656037 (strBytes sessionID)
  let h := matching.foldl
    (fun h rule =>
      if rule.AffinityToken ≠ "" then fnv64Write h (strBytes rule.AffinityToken)
      else
        fnv64Write (fnv64Write (fnv64Write h (strBytes rule.Path))
          (strBytes rule.Method)) (strBytes rule.Backend))
    h0
  (h : ℚ) / (2 ^ 64 - 1) * 100

/-- Model of `selectBackendFromRanges` (part_008:284): scale the hash point
by `total / 100` and walk the backends in ascending order, breaking at the
first whose cumulative upper bound is at least the scaled hash point.  Go
declares `var selectedBackend string`, whose zero value `""` the loop leaves
in place when no backend is hit — modelled by `(find? …).getD ""`.  The
post-loop check at part_008:302-304 then replaces an *empty* result with the
last backend; it cannot distinguish "no backend hit" from "the hit backend
is named `\x22\x22`", so a backend whose name is the empty string is also
overwritten by the last backend.  (Go indexes `backends[len(backends)-1]`,
which would panic on an empty backend list; that list is non-empty on every
call from `selectBackend`, and the unreachable case is modelled by
`getLastD ""`.) -/
def selectBackendFromRanges (matching : List RoutingRule) (hashValue : ℚ) : String :=
  let backends := V2.backendKeysSorted matching
  let cumulativeRanges := V2.createCumulativeRanges matching
  let scaledHashValue := hashValue * (V2.totalPercentage matching / 100)
  let selectedBackend :=
    (backends.find? (fun b =>
      decide (scaledHashValue ≤ V2.rangeOf cumulativeRanges b))).getD ""
  if selectedBackend = "" then backends.getLastD "" else selectedBackend

/-- Model of `selectBackendByPercentageAndRuleHash` (part_008:262). -/
def selectBackendByPercentageAndRuleHash (sessionID : String)
    (matching : List RoutingRule) : String :=
  V2.selectBackendFromRanges matching (V2.calculateHash sessionID matching)

/-- Model of `selectBackend` (part_008:219): group the priority-sorted
matching rules by backend, select a backend by cumulative percentage ranges
and the rule-set hash, and return it with the first rule of its group; fall
back to the default backend when nothing was selected. -/
def selectBackend (cfg : Config) (req : Request) (sessionID : String) :
    SelectedBackend :=
  let matchingRules := V2.matchingRulesOf cfg req
  if matchingRules = [] then
    { Backend := cfg.DefaultBackend, Rule := none }
  else
    let sorted := sortRulesByPriority matchingRules
    let selected := V2.selectBackendByPercentageAndRuleHash sessionID sorted
    if selected ≠ "" ∧ V2.backendRules sorted selected ≠ [] then
      { Backend := selected, Rule := (V2.backendRules sorted selected).head? }
    else
      { Backend := cfg.DefaultBackend, Rule := none }

end V2

/-- Index of the first occurrence of `pat` in `l`, if any. -/
def firstSubPos (l pat : List Char) : Option Nat :=
  (List.range (l.length + 1)).find? (fun i => pat.isPrefixOf (l.drop i))

/-- Model of Go `strings.Replace(s, old, new, 1)`: replace the first
occurrence of `old` (an empty `old` inserts at the start). -/
def goReplaceOnce (s old new : String) : String :=
  if old = "" then new ++ s
  else
    match firstSubPos s.data old.data with
    | none => s
    | some i => ⟨s.data.take i ++ new.data ++ s.data.drop (i + old.data.length)⟩

/-- Model of `constructBackendURL` (forklift.go:409): the outbound URL is
the backend string concatenated with the request path, where a configured
`PathPrefixRewrite` replaces a matching `PathPrefix` once. -/
def constructBackendURL (req : Request) (backend : String)
    (selectedRule : Option RoutingRule) : String :=
  let backendPath := req.Path
  let backendPath :=
    match selectedRule with
    | some rule =>
      if rule.PathPrefixRewrite ≠ "" then
        if rule.PathPrefix ≠ "" ∧ goHasPrefix req.Path rule.PathPrefix then
          goReplaceOnce backendPath rule.PathPrefix rule.PathPrefixRewrite
        else backendPath
      else backendPath
    | none => backendPath
  backend ++ backendPath

/-- Query string of a URL string: everything after the first `?` (what
`http.NewRequest` parses into `URL.RawQuery`; fragments do not occur in
backend URLs). -/
def urlQueryOf (s : String) : String :=
  ⟨(s.data.dropWhile (fun c => c ≠ '?')).drop 1⟩

/-- URL-safe base64 alphabet (Go `base64.URLEncoding`). -/
def b64Chars : List Char :=
  "ABCDEFGHIJKLMNOPQRSTUVWXYZabcdefghijklmnopqrstuvwxyz0123456789-_".data

/-- Index of a character in the URL-safe base64 alphabet. -/
def b64Index (c : Char) : Option Nat :=
  b64Chars.indexOf? c

/-- Character for a 6-bit value. -/
def b64Char (n : Nat) : Char :=
  b64Chars.getD n 'A'

/-- Model of `base64.URLEncoding.EncodeToString`: 3-byte groups become 4
characters; a 2-byte tail becomes 3 characters and `=`; a 1-byte tail
becomes 2 characters and `==`. -/
def encodeGroups : List Nat → List Char
  | b1 :: b2 :: b3 :: rest =>
    b64Char (b1 / 4) :: b64Char ((b1 % 4) * 16 + b2 / 16) ::
      b64Char ((b2 % 16) * 4 + b3 / 64) :: b64Char (b3 % 64) :: encodeGroups rest
  | [b1, b2] => [b64Char (b1 / 4), b64Char ((b1 % 4) * 16 + b2 / 16), b64Char ((b2 % 16) * 4), '=']
  | [b1] => [b64Char (b1 / 4), b64Char ((b1 % 4) * 16), '=', '=']
  | [] => []

/-- Model of `base64.URLEncoding.DecodeString`: the input must consist of
4-character quanta over the URL-safe alphabet, with `=`-padding allowed only
in the final quantum (`xx==` or `xxx=`); `none` models a
`CorruptInputError`. -/
def decodeGroups : List Char → Option (List Nat)
  | [] => some []
  | c1 :: c2 :: c3 :: c4 :: rest =>
    match b64Index c1, b64Index c2 with
    | some i1, some i2 =>
      if rest = [] then
        if c3 = '=' ∧ c4 = '=' then some [i1 * 4 + i2 / 16]
        else if c4 = '=' then
          match b64Index c3 with
          | some i3 => some [i1 * 4 + i2 / 16, (i2 % 16) * 16 + i3 / 4]
          | none => none
        else
          match b64Index c3, b64Index c4 with
          | some i3, some i4 =>
            some [i1 * 4 + i2 / 16, (i2 % 16) * 16 + i3 / 4, (i3 % 4) * 64 + i4]
          | _, _ => none
      else
        match b64Index c3, b64Index c4 with
        | some i3, some i4 =>
          match decodeGroups rest with
          | some bs => some ([i1 * 4 + i2 / 16, (i2 % 16) * 16 + i3 / 4, (i3 % 4) * 64 + i4] ++ bs)
          | none => none
        | _, _ => none
    | _, _ => none
  | _ => none

/-- Model of `generateSessionID` (forklift.go:162): URL-safe base64 of the
32 bytes read from `crypto/rand`; the random bytes are the `entropy`
argument (the read-failure branch, which surfaces a 500, is outside this
model). -/
def generateSessionID (entropy : List Nat) : String :=
  ⟨encodeGroups entropy⟩

/-- Model of `isValidSessionID` (forklift.go:621): non-empty, at most 128
bytes and URL-safe base64. -/
def isValidSessionID (sessionID : String) : Bool :=
  decide (0 < sessionID.length) && decide (sessionID.length ≤ 128) &&
    (decodeGroups sessionID.data).isSome

/-- Value of the request cookie with the given name, if any. -/
def cookieLookup (req : Request) (name : String) : Option String :=
  (req.cookies.find? (fun c => c.1 = name)).map Prod.snd

/-- Model of `getOrCreateSessionID` (forklift.go:630): a present, non-empty,
valid `forklift_id` cookie is returned unchanged; otherwise a fresh id is
generated (and set on the response, which the model does not track). -/
def getOrCreateSessionID (req : Request) (entropy : List Nat) : String :=
  match cookieLookup req "forklift_id" with
  | some v => if v ≠ "" ∧ isValidSessionID v then v else generateSessionID entropy
  | none => generateSessionID entropy

/-- Model of `NewForklift` (forklift.go:120): reject a nil configuration, an
empty default backend and out-of-range percentages, then sort the rule slice
in place by descending priority.  The returned configuration is the caller's
configuration object after the call. -/
def NewForklift (cfg : Option Config) : Except String Config :=
  match cfg with
  | none => Except.error "empty configuration"
  | some cfg =>
    if cfg.DefaultBackend = "" then Except.error "missing DefaultBackend"
    else if cfg.Rules.any (fun r => decide (r.Percentage < 0) || decide (r.Percentage > 100)) then
      Except.error "invalid percentage: must be between 0 and 100"
    else
      Except.ok { cfg with Rules := sortRulesByPriority cfg.Rules }

namespace GoSort

/-!
Faithful embedding of Go 1.23's `sort.Slice` (`sort/zsortfunc.go`,
pattern-defeating quicksort).  State is the whole slice as a `List`; every
mutation of the Go code is a `data.Swap`, modelled by `lSwap`.  Loops carry
explicit fuel; every caller supplies enough fuel for the loop bounds of the
source, and the permutation lemmas below hold for every fuel value.
-/

/-- Read `data[i]` (all reads of the source are in bounds). -/
def lGet [Inhabited α] (l : List α) (i : Nat) : α :=
  l.getD i default

/-- Model of `data.Swap(i, j)`. -/
def lSwap [Inhabited α] (l : List α) (i j : Nat) : List α :=
  if i < l.length ∧ j < l.length then (l.set i (lGet l j)).set j (lGet l i) else l

/-- Inner loop of `insertionSort_func`: bubble the element at `j` to the
left while it sorts strictly before its left neighbour. -/
def insertionSortInner [Inhabited α] (less : α → α → Bool) :
    Nat → List α → Nat → Nat → List α
  | 0, l, _, _ => l
  | fuel + 1, l, j, a =>
    if a < j ∧ less (lGet l j) (lGet l (j - 1)) then
      insertionSortInner less fuel (lSwap l j (j - 1)) (j - 1) a
    else l

/-- Outer loop of `insertionSort_func`, `i` ranging over `[a+1, b)`. -/
def insertionSortOuter [Inhabited α] (less : α → α → Bool) :
    Nat → List α → Nat → Nat → Nat → List α
  | 0, l, _, _, _ => l
  | fuel + 1, l, i, b, a =>
    if i < b then
      insertionSortOuter less fuel (insertionSortInner less i l i a) (i + 1) b a
    else l

/-- Model of `insertionSort_func(data, a, b)`. -/
def insertionSort [Inhabited α] (less : α → α → Bool) (l : List α) (a b : Nat) :
    List α :=
  insertionSortOuter less b l (a + 1) b a

/-- Model of `siftDown_func(data, root, hi, first)`. -/
def siftDown [Inhabited α] (less : α → α → Bool) :
    Nat → List α → Nat → Nat → Nat → List α
  | 0, l, _, _, _ => l
  | fuel + 1, l, root, hi, first =>
    let child := 2 * root + 1
    if child ≥ hi then l
    else
      let child :=
        if child + 1 < hi ∧ less (lGet l (first + child)) (lGet l (first + child + 1)) then
          child + 1
        else child
      if ¬ less (lGet l (first + root)) (lGet l (first + child)) then l
      else siftDown less fuel (lSwap l (first + root) (first + child)) child hi first

/-- Heap-construction loop of `heapSort_func` (`i` from `(hi-1)/2` down to 0). -/
def heapSortBuild [Inhabited α] (less : α → α → Bool) :
    Nat → List α → Nat → Nat → Nat → List α
  | 0, l, _, _, _ => l
  | fuel + 1, l, i, hi, first =>
    let l := siftDown less hi l i hi first
    if i = 0 then l else heapSortBuild less fuel l (i - 1) hi first

/-- Pop loop of `heapSort_func` (`i` from `hi-1` down to 0). -/
def heapSortPop [Inhabited α] (less : α → α → Bool) :
    Nat → List α → Nat → Nat → List α
  | 0, l, _, _ => l
  | fuel + 1, l, i, first =>
    let l := lSwap l first (first + i)
    let l := siftDown less (i + 1) l 0 i first
    if i = 0 then l else heapSortPop less fuel l (i - 1) first

/-- Model of `heapSort_func(data, a, b)`. -/
def heapSort [Inhabited α] (less : α → α → Bool) (l : List α) (a b : Nat) :
    List α :=
  let first := a
  let hi := b - a
  let l := heapSortBuild less hi l ((hi - 1) / 2) hi first
  if hi = 0 then l else heapSortPop less hi l (hi - 1) first

/-- Model of the `xorshift.Next` step (64-bit xorshift PRNG). -/
def xorshiftNext (r : Nat) : Nat :=
  let r := (r ^^^ (r <<< 13)) % 2 ^ 64
  let r := r ^^^ (r >>> 7)
  (r ^^^ (r <<< 17)) % 2 ^ 64

/-- Model of Go `bits.Len`. -/
def bitsLen (n : Nat) : Nat :=
  if n = 0 then 0 else Nat.log2 n + 1

/-- Model of `breakPatterns_func(data, a, b)`: three pseudo-random swaps
around the middle, seeded deterministically with the segment length. -/
def breakPatterns [Inhabited α] (l : List α) (a b : Nat) : List α :=
  let length := b - a
  if length ≥ 8 then
    let modulus := 2 ^ bitsLen length
    let idx := a + (length / 4) * 2 - 1
    let r1 := xorshiftNext length
    let o1 := r1 % modulus
    let o1 := if o1 ≥ length then o1 - length else o1
    let l := lSwap l (idx - 1) (a + o1)
    let r2 := xorshiftNext r1
    let o2 := r2 % modulus
    let o2 := if o2 ≥ length then o2 - length else o2
    let l := lSwap l idx (a + o2)
    let r3 := xorshiftNext r2
    let o3 := r3 % modulus
    let o3 := if o3 ≥ length then o3 - length else o3
    lSwap l (idx + 1) (a + o3)
  else l

/-- The `sortedHint` values of the source. -/
inductive Hint where
  | unknown
  | increasing
  | decreasing
  deriving DecidableEq, Repr

/-- Model of `order2_func`: order two indices by the pointed-to elements,
counting a swap when they trade places. -/
def order2 [Inhabited α] (less : α → α → Bool) (l : List α) (a b swaps : Nat) :
    Nat × Nat × Nat :=
  if less (lGet l b) (lGet l a) then (b, a, swaps + 1) else (a, b, swaps)

/-- Model of `median_func`: index of the median of three elements. -/
def median [Inhabited α] (less : α → α → Bool) (l : List α) (a b c swaps : Nat) :
    Nat × Nat :=
  let p1 := order2 less l a b swaps
  let p2 := order2 less l p1.2.1 c p1.2.2
  let p3 := order2 less l p1.1 p2.1 p2.2.2
  (p3.2.1, p3.2.2)

/-- Model of `medianAdjacent_func`. -/
def medianAdjacent [Inhabited α] (less : α → α → Bool) (l : List α) (a swaps : Nat) :
    Nat × Nat :=
  median less l (a - 1) a (a + 1) swaps

/-- Hint derived from the swap count (`choosePivot_func`'s final `switch`). -/
def hintOf (swaps : Nat) : Hint :=
  if swaps = 0 then Hint.increasing
  else if swaps = 12 then Hint.decreasing
  else Hint.unknown

/-- Model of `choosePivot_func(data, a, b)`. -/
def choosePivot [Inhabited α] (less : α → α → Bool) (l : List α) (a b : Nat) :
    Nat × Hint :=
  let length := b - a
  let i := a + length / 4 * 1
  let j := a + length / 4 * 2
  let k := a + length / 4 * 3
  if length ≥ 8 then
    if length ≥ 50 then
      let pi' := medianAdjacent less l i 0
      let pj := medianAdjacent less l j pi'.2
      let pk := medianAdjacent less l k pj.2
      let pm := median less l pi'.1 pj.1 pk.1 pk.2
      (pm.1, hintOf pm.2)
    else
      let pm := median less l i j k 0
      (pm.1, hintOf pm.2)
  else (j, hintOf 0)

/-- Model of `reverseRange_func(data, a, b)`. -/
def reverseRange [Inhabited α] : Nat → List α → Nat → Nat → List α
  | 0, l, _, _ => l
  | fuel + 1, l, i, j =>
    if i < j then reverseRange fuel (lSwap l i j) (i + 1) (j - 1) else l

/-- Advance `i` over elements already in place
(`for i < b && !data.Less(i, i-1)`). -/
def pisAdvance [Inhabited α] (less : α → α → Bool) :
    Nat → List α → Nat → Nat → Nat
  | 0, _, i, _ => i
  | fuel + 1, l, i, b =>
    if i < b ∧ ¬ less (lGet l i) (lGet l (i - 1)) then pisAdvance less fuel l (i + 1) b
    else i

/-- Left-shift loop of `partialInsertionSort_func`
(`for j := i-1; j >= 1; j--`). -/
def pisShiftLeft [Inhabited α] (less : α → α → Bool) :
    Nat → List α → Nat → List α
  | 0, l, _ => l
  | fuel + 1, l, j =>
    if 1 ≤ j then
      if ¬ less (lGet l j) (lGet l (j - 1)) then l
      else pisShiftLeft less fuel (lSwap l j (j - 1)) (j - 1)
    else l

/-- Right-shift loop of `partialInsertionSort_func`
(`for j := i+1; j < b; j++`). -/
def pisShiftRight [Inhabited α] (less : α → α → Bool) :
    Nat → List α → Nat → Nat → List α
  | 0, l, _, _ => l
  | fuel + 1, l, j, b =>
    if j < b then
      if ¬ less (lGet l j) (lGet l (j - 1)) then l
      else pisShiftRight less fuel (lSwap l j (j - 1)) (j + 1) b
    else l

/-- Step loop of `partialInsertionSort_func` (at most `maxSteps = 5`
adjacent out-of-order pairs are repaired; short slices bail out). -/
def pisLoop [Inhabited α] (less : α → α → Bool) :
    Nat → List α → Nat → Nat → Nat → Bool × List α
  | 0, l, _, _, _ => (false, l)
  | steps + 1, l, i, a, b =>
    let i := pisAdvance less (b + 1) l i b
    if i = b then (true, l)
    else if b - a < 50 then (false, l)
    else
      let l := lSwap l i (i - 1)
      let l := if i - a ≥ 2 then pisShiftLeft less i l (i - 1) else l
      let l := if b - i ≥ 2 then pisShiftRight less b l (i + 1) b else l
      pisLoop less steps l i a b

/-- Model of `partialInsertionSort_func(data, a, b)`; `true` means the
segment is now sorted. -/
def partialInsertionSort [Inhabited α] (less : α → α → Bool) (l : List α)
    (a b : Nat) : Bool × List α :=
  pisLoop less 5 l (a + 1) a b

/-- Skip loop `for i <= j && data.Less(i, a)` of `partition_func`. -/
def partSkipI [Inhabited α] (less : α → α → Bool) :
    Nat → List α → Nat → Nat → Nat → Nat
  | 0, _, i, _, _ => i
  | fuel + 1, l, i, j, a =>
    if i ≤ j ∧ less (lGet l i) (lGet l a) then partSkipI less fuel l (i + 1) j a
    else i

/-- Skip loop `for i <= j && !data.Less(j, a)` of `partition_func`. -/
def partSkipJ [Inhabited α] (less : α → α → Bool) :
    Nat → List α → Nat → Nat → Nat → Nat
  | 0, _, _, j, _ => j
  | fuel + 1, l, i, j, a =>
    if i ≤ j ∧ ¬ less (lGet l j) (lGet l a) then partSkipJ less fuel l i (j - 1) a
    else j

/-- Main exchange loop of `partition_func`; returns the slice and the final
`j`. -/
def partitionLoop [Inhabited α] (less : α → α → Bool) :
    Nat → List α → Nat → Nat → Nat → List α × Nat
  | 0, l, _, j, _ => (l, j)
  | fuel + 1, l, i, j, a =>
    let i := partSkipI less (j + 2) l i j a
    let j := partSkipJ less (j + 2) l i j a
    if i > j then (l, j)
    else partitionLoop less fuel (lSwap l i j) (i + 1) (j - 1) a

/-- Model of `partition_func(data, a, b, pivot)`: returns the slice, the new
pivot position and whether the segment was already partitioned. -/
def partition [Inhabited α] (less : α → α → Bool) (l : List α) (a b pivot : Nat) :
    List α × Nat × Bool :=
  let l := lSwap l a pivot
  let i := partSkipI less b l (a + 1) (b - 1) a
  let j := partSkipJ less b l i (b - 1) a
  if i > j then (lSwap l j a, j, true)
  else
    let l := lSwap l i j
    let p := partitionLoop less b l (i + 1) (j - 1) a
    (lSwap p.1 p.2 a, p.2, false)

/-- Skip loop `for i <= j && !data.Less(a, i)` of `partitionEqual_func`. -/
def partEqSkipI [Inhabited α] (less : α → α → Bool) :
    Nat → List α → Nat → Nat → Nat → Nat
  | 0, _, i, _, _ => i
  | fuel + 1, l, i, j, a =>
    if i ≤ j ∧ ¬ less (lGet l a) (lGet l i) then partEqSkipI less fuel l (i + 1) j a
    else i

/-- Skip loop `for i <= j && data.Less(a, j)` of `partitionEqual_func`. -/
def partEqSkipJ [Inhabited α] (less : α → α → Bool) :
    Nat → List α → Nat → Nat → Nat → Nat
  | 0, _, _, j, _ => j
  | fuel + 1, l, i, j, a =>
    if i ≤ j ∧ less (lGet l a) (lGet l j) then partEqSkipJ less fuel l i (j - 1) a
    else j

/-- Main loop of `partitionEqual_func`; returns the slice and the final `i`. -/
def partitionEqualLoop [Inhabited α] (less : α → α → Bool) :
    Nat → List α → Nat → Nat → Nat → List α × Nat
  | 0, l, i, _, _ => (l, i)
  | fuel + 1, l, i, j, a =>
    let i := partEqSkipI less (j + 2) l i j a
    let j := partEqSkipJ less (j + 2) l i j a
    if i > j then (l, i)
    else partitionEqualLoop less fuel (lSwap l i j) (i + 1) (j - 1) a

/-- Model of `partitionEqual_func(data, a, b, pivot)`: returns the slice and
the first index of the strictly-greater suffix. -/
def partitionEqual [Inhabited α] (less : α → α → Bool) (l : List α)
    (a b pivot : Nat) : List α × Nat :=
  let l := lSwap l a pivot
  partitionEqualLoop less b l (a + 1) (b - 1) a

/-- Model of `pdqsort_func(data, a, b, limit)`.  One fuel unit is one
iteration of the source's main loop or one recursive call; the fuel supplied
by `sortSlice` dominates the source's loop count. -/
def pdqsort [Inhabited α] (less : α → α → Bool) :
    Nat → List α → Nat → Nat → Nat → Bool → Bool → List α
  | 0, l, _, _, _, _, _ => l
  | fuel + 1, l, a, b, limit, wasBalanced, wasPartitioned =>
    let length := b - a
    if length ≤ 12 then insertionSort less l a b
    else if limit = 0 then heapSort less l a b
    else
      let bp := if ¬ wasBalanced then (breakPatterns l a b, limit - 1) else (l, limit)
      let l := bp.1
      let limit := bp.2
      let cp := choosePivot less l a b
      let rv :=
        if cp.2 = Hint.decreasing then
          (reverseRange (b - a) l a (b - 1), (b - 1) - (cp.1 - a), Hint.increasing)
        else (l, cp.1, cp.2)
      let l := rv.1
      let pivot := rv.2.1
      let hint := rv.2.2
      let pis :=
        if wasBalanced ∧ wasPartitioned ∧ hint = Hint.increasing then
          partialInsertionSort less l a b
        else (false, l)
      if pis.1 then pis.2
      else
        let l := pis.2
        if 0 < a ∧ ¬ less (lGet l (a - 1)) (lGet l pivot) then
          let pe := partitionEqual less l a b pivot
          pdqsort less fuel pe.1 pe.2 b limit wasBalanced wasPartitioned
        else
          let pt := partition less l a b pivot
          let mid := pt.2.1
          let alreadyPartitioned := pt.2.2
          let leftLen := mid - a
          let rightLen := b - mid
          let balanceThreshold := length / 8
          let nowBalanced := decide (min leftLen rightLen ≥ balanceThreshold)
          if leftLen < rightLen then
            let l := pdqsort less fuel pt.1 a mid limit true true
            pdqsort less fuel l (mid + 1) b limit nowBalanced alreadyPartitioned
          else
            let l := pdqsort less fuel pt.1 (mid + 1) b limit true true
            pdqsort less fuel l a mid limit nowBalanced alreadyPartitioned

/-- Model of `sort.Slice(x, less)`: `pdqsort` over the whole slice with
`limit = bits.Len(length)`. -/
def sortSlice [Inhabited α] (less : α → α → Bool) (l : List α) : List α :=
  pdqsort less (l.length + 1) l 0 l.length (bitsLen l.length) true true

end GoSort

/-- The comparator of the `sort.Slice` calls at forklift.go:134 and
forklift.go:241, exactly as the source writes it: rule `a` sorts before rule
`b` when `a.Priority > b.Priority`. -/
def goPriorityLess (a b : RoutingRule) : Bool :=
  decide (a.Priority > b.Priority)

/-- The possibly prefix-rewritten request path of §4.7: the inner path
computation of `constructBackendURL` (forklift.go:410-416). -/
def rewrittenPath (req : Request) (selectedRule : Option RoutingRule) : String :=
  match selectedRule with
  | some rule =>
    if rule.PathPrefixRewrite ≠ "" then
      if rule.PathPrefix ≠ "" ∧ goHasPrefix req.Path rule.PathPrefix then
        goReplaceOnce req.Path rule.PathPrefix rule.PathPrefixRewrite
      else req.Path
    else req.Path
  | none => req.Path

/-- Parse result of `strconv.ParseFloat` with the error discarded (Go's zero
value `0` stands in for a failed parse), as `parseFloats` uses it. -/
def parseFloatOrZero (s : String) : ℚ :=
  (goParseFloat s).getD 0

namespace Ex

/-- A conditionless `GET` rule with the given priority and backend. -/
def prioRule (p : Int) (b : String) : RoutingRule :=
  { Path := "/", PathPrefix := "", Method := "GET", Conditions := [], Backend := b,
    Percentage := 0, Priority := p, PathPrefixRewrite := "", AffinityToken := "" }

/-- A 50% priority-1 `GET /` rule with the given backend and affinity token. -/
def halfRule (b tok : String) : RoutingRule :=
  { Path := "/", PathPrefix := "", Method := "GET", Conditions := [], Backend := b,
    Percentage := 50, Priority := 1, PathPrefixRewrite := "", AffinityToken := tok }

/-- A plain `GET /` request with no headers, cookies, query or form data. -/
def reqGET : Request :=
  { Method := "GET", Path := "/", RawQuery := "", headerValues := fun _ => [],
    cookies := [], queryGet := fun _ => "", formGet := none }

/-- Thirteen conditionless rules: twelve at priority 1 (backends b0 … b11, in
definition order) and one at priority 2 (backend b12).  Thirteen rules is the
smallest count for which Go's `sort.Slice` leaves its insertion-sort path. -/
def rules13 : List RoutingRule :=
  [prioRule 1 "b0", prioRule 1 "b1", prioRule 1 "b2", prioRule 1 "b3",
   prioRule 1 "b4", prioRule 1 "b5", prioRule 1 "b6", prioRule 1 "b7",
   prioRule 1 "b8", prioRule 1 "b9", prioRule 1 "b10", prioRule 1 "b11",
   prioRule 2 "b12"]

/-- Two 50/50 split rules for `GET /` (the S6 scenario of the spec). -/
def cfg5050 : Config :=
  { DefaultBackend := "http://default",
    Rules := [halfRule "http://echo1" "group1", halfRule "http://echo2" "group2"],
    Debug := false }

/-- `cfg5050` with debug logging enabled. -/
def cfg5050debug : Config :=
  { cfg5050 with Debug := true }

/-- The 50/50 split with the first rule routing to the empty backend string. -/
def cfgEmptyBackend : Config :=
  { DefaultBackend := "http://default",
    Rules := [halfRule "" "group1", halfRule "http://echo2" "group2"],
    Debug := false }

/-- The priority-sorted matching rules of `cfgEmptyBackend` for `GET /`. -/
def sortedEmptyMatching : List RoutingRule :=
  sortRulesByPriority (V2.matchingRulesOf cfgEmptyBackend reqGET)

/-- A 50/50 split in which every rule routes to the empty backend string. -/
def cfgAllEmpty : Config :=
  { DefaultBackend := "http://default",
    Rules := [halfRule "" "group1", halfRule "" "group2"],
    Debug := false }

/-- A hard priority-2 rule over a 50% priority-1 rule (the §4.5 step 1
priority bypass situation). -/
def cfgBypass : Config :=
  { DefaultBackend := "http://default",
    Rules := [halfRule "http://echo1" "", prioRule 2 "http://echo2"],
    Debug := false }

/-- A request whose URL carries a query string. -/
def reqQuery : Request :=
  { Method := "GET", Path := "/a", RawQuery := "x=1", headerValues := fun _ => [],
    cookies := [], queryGet := fun _ => "", formGet := none }

/-- 32 zero bytes standing for one `crypto/rand` read. -/
def entropy32 : List Nat :=
  List.replicate 32 0

/-- A request carrying the session cookie minted from `entropy32`. -/
def reqWithSession : Request :=
  { Method := "GET", Path := "/", RawQuery := "", headerValues := fun _ => [],
    cookies := [("forklift_id", generateSessionID entropy32)],
    queryGet := fun _ => "", formGet := none }

end Ex

namespace GoSort

theorem count_set_getD [DecidableEq α] [Inhabited α] :
    ∀ (l : List α) (n : Nat), n < l.length → ∀ (b x : α),
      (l.set n b).count x + (if l.getD n default = x then 1 else 0)
        = l.count x + (if b = x then 1 else 0) := by
  intro l
  induction l with
  | nil => intro n h; simp at h
  | cons a t ih =>
    intro n h b x
    cases n with
    | zero =>
      simp only [List.set_cons_zero, List.getD_cons_zero, List.count_cons, beq_iff_eq]
      omega
    | succ n =>
      have hn : n < t.length := by simpa using h
      have := ih n hn b x
      simp only [List.set_cons_succ, List.getD_cons_succ, List.count_cons, beq_iff_eq]
      omega

theorem set_self_getD [Inhabited α] (l : List α) (i : Nat) (hi : i < l.length) :
    l.set i (l.getD i default) = l := by
  apply List.ext_getElem
  · simp
  · intro n h1 h2
    rw [List.getElem_set]
    split
    case isTrue h => subst h; simp [List.getD_eq_getElem?_getD, List.getElem?_eq_getElem hi]
    case isFalse h => rfl

theorem lSwap_perm [Inhabited α] (l : List α) (i j : Nat) : (lSwap l i j).Perm l := by
  classical
  unfold lSwap
  split
  case isFalse => exact List.Perm.refl l
  case isTrue h =>
    rcases h with ⟨hi, hj⟩
    by_cases hij : i = j
    · subst hij
      rw [List.set_set]
      rw [show lGet l i = l.getD i default from rfl, set_self_getD l i hi]
    · refine List.perm_iff_count.mpr fun x => ?_
      have hgi : lGet l i = l.getD i default := rfl
      have hgj : lGet l j = l.getD j default := rfl
      have h1 := count_set_getD l i hi (lGet l j) x
      have hj1 : j < (l.set i (lGet l j)).length := by simpa using hj
      have h2 := count_set_getD (l.set i (lGet l j)) j hj1 (lGet l i) x
      have hgd : (l.set i (l.getD j default)).getD j default = l.getD j default := by
        simp [List.getD_eq_getElem?_getD, List.getElem?_set_ne hij]
      simp only [hgi, hgj] at h1 h2 ⊢
      rw [hgd] at h2
      omega

theorem insertionSortInner_perm [Inhabited α] (less : α → α → Bool) :
    ∀ (fuel : Nat) (l : List α) (j a : Nat),
      (insertionSortInner less fuel l j a).Perm l := by
  intro fuel
  induction fuel with
  | zero => intro l j a; exact List.Perm.refl l
  | succ n ih =>
    intro l j a
    unfold insertionSortInner
    split
    · exact (ih _ _ _).trans (lSwap_perm l j (j - 1))
    · exact List.Perm.refl l

theorem insertionSortOuter_perm [Inhabited α] (less : α → α → Bool) :
    ∀ (fuel : Nat) (l : List α) (i b a : Nat),
      (insertionSortOuter less fuel l i b a).Perm l := by
  intro fuel
  induction fuel with
  | zero => intro l i b a; exact List.Perm.refl l
  | succ n ih =>
    intro l i b a
    unfold insertionSortOuter
    split
    · exact (ih _ _ _ _).trans (insertionSortInner_perm less i l i a)
    · exact List.Perm.refl l

theorem insertionSort_perm [Inhabited α] (less : α → α → Bool) (l : List α)
    (a b : Nat) : (insertionSort less l a b).Perm l :=
  insertionSortOuter_perm less b l (a + 1) b a

theorem siftDown_perm [Inhabited α] (less : α → α → Bool) :
    ∀ (fuel : Nat) (l : List α) (root hi first : Nat),
      (siftDown less fuel l root hi first).Perm l := by
  intro fuel
  induction fuel with
  | zero => intro l root hi first; exact List.Perm.refl l
  | succ n ih =>
    intro l root hi first
    unfold siftDown
    dsimp only
    split
    · exact List.Perm.refl l
    · split
      · split
        · exact List.Perm.refl l
        · exact (ih _ _ _ _).trans (lSwap_perm _ _ _)
      · split
        · exact List.Perm.refl l
        · exact (ih _ _ _ _).trans (lSwap_perm _ _ _)

theorem heapSortBuild_perm [Inhabited α] (less : α → α → Bool) :
    ∀ (fuel : Nat) (l : List α) (i hi first : Nat),
      (heapSortBuild less fuel l i hi first).Perm l := by
  intro fuel
  induction fuel with
  | zero => intro l i hi first; exact List.Perm.refl l
  | succ n ih =>
    intro l i hi first
    unfold heapSortBuild
    dsimp only
    split
    · exact siftDown_perm less hi l i hi first
    · exact (ih _ _ _ _).trans (siftDown_perm less hi l i hi first)

theorem heapSortPop_perm [Inhabited α] (less : α → α → Bool) :
    ∀ (fuel : Nat) (l : List α) (i first : Nat),
      (heapSortPop less fuel l i first).Perm l := by
  intro fuel
  induction fuel with
  | zero => intro l i first; exact List.Perm.refl l
  | succ n ih =>
    intro l i first
    unfold heapSortPop
    dsimp only
    split
    · exact (siftDown_perm less _ _ _ _ _).trans (lSwap_perm _ _ _)
    · exact ((ih _ _ _).trans (siftDown_perm less _ _ _ _ _)).trans (lSwap_perm _ _ _)

theorem heapSort_perm [Inhabited α] (less : α → α → Bool) (l : List α) (a b : Nat) :
    (heapSort less l a b).Perm l := by
  unfold heapSort
  dsimp only
  split
  · exact heapSortBuild_perm less _ l _ _ _
  · exact (heapSortPop_perm less _ _ _ _).trans (heapSortBuild_perm less _ l _ _ _)

theorem breakPatterns_perm [Inhabited α] (l : List α) (a b : Nat) :
    (breakPatterns l a b).Perm l := by
  unfold breakPatterns
  dsimp only
  split
  · exact ((lSwap_perm _ _ _).trans (lSwap_perm _ _ _)).trans (lSwap_perm _ _ _)
  · exact List.Perm.refl l

theorem reverseRange_perm [Inhabited α] :
    ∀ (fuel : Nat) (l : List α) (i j : Nat), (reverseRange fuel l i j).Perm l := by
  intro fuel
  induction fuel with
  | zero => intro l i j; exact List.Perm.refl l
  | succ n ih =>
    intro l i j
    unfold reverseRange
    split
    · exact (ih _ _ _).trans (lSwap_perm _ _ _)
    · exact List.Perm.refl l

theorem pisShiftLeft_perm [Inhabited α] (less : α → α → Bool) :
    ∀ (fuel : Nat) (l : List α) (j : Nat), (pisShiftLeft less fuel l j).Perm l := by
  intro fuel
  induction fuel with
  | zero => intro l j; exact List.Perm.refl l
  | succ n ih =>
    intro l j
    unfold pisShiftLeft
    split
    · split
      · exact List.Perm.refl l
      · exact (ih _ _).trans (lSwap_perm _ _ _)
    · exact List.Perm.refl l

theorem pisShiftRight_perm [Inhabited α] (less : α → α → Bool) :
    ∀ (fuel : Nat) (l : List α) (j b : Nat),
      (pisShiftRight less fuel l j b).Perm l := by
  intro fuel
  induction fuel with
  | zero => intro l j b; exact List.Perm.refl l
  | succ n ih =>
    intro l j b
    unfold pisShiftRight
    split
    · split
      · exact List.Perm.refl l
      · exact (ih _ _ _).trans (lSwap_perm _ _ _)
    · exact List.Perm.refl l

theorem pisLoop_perm [Inhabited α] (less : α → α → Bool) :
    ∀ (steps : Nat) (l : List α) (i a b : Nat),
      (pisLoop less steps l i a b).2.Perm l := by
  intro steps
  induction steps with
  | zero => intro l i a b; exact List.Perm.refl l
  | succ n ih =>
    intro l i a b
    unfold pisLoop
    dsimp only
    split
    · exact List.Perm.refl l
    · split
      · exact List.Perm.refl l
      · refine (ih _ _ _ _).trans ?_
        have hsl : ∀ (l0 : List α) (c : Prop) [Decidable c] (k : Nat),
            ((if c then pisShiftLeft less k l0 (k - 1) else l0)).Perm l0 := by
          intro l0 c _ k
          split
          · exact pisShiftLeft_perm less k l0 (k - 1)
          · exact List.Perm.refl l0
        have hsr : ∀ (l0 : List α) (c : Prop) [Decidable c] (k m : Nat),
            ((if c then pisShiftRight less m l0 (k + 1) m else l0)).Perm l0 := by
          intro l0 c _ k m
          split
          · exact pisShiftRight_perm less m l0 (k + 1) m
          · exact List.Perm.refl l0
        exact ((hsr _ _ _ _).trans (hsl _ _ _)).trans (lSwap_perm _ _ _)

theorem partialInsertionSort_perm [Inhabited α] (less : α → α → Bool)
    (l : List α) (a b : Nat) : (partialInsertionSort less l a b).2.Perm l :=
  pisLoop_perm less 5 l (a + 1) a b

theorem partitionLoop_perm [Inhabited α] (less : α → α → Bool) :
    ∀ (fuel : Nat) (l : List α) (i j a : Nat),
      (partitionLoop less fuel l i j a).1.Perm l := by
  intro fuel
  induction fuel with
  | zero => intro l i j a; exact List.Perm.refl l
  | succ n ih =>
    intro l i j a
    unfold partitionLoop
    dsimp only
    split
    · exact List.Perm.refl l
    · exact (ih _ _ _ _).trans (lSwap_perm _ _ _)

theorem partition_perm [Inhabited α] (less : α → α → Bool) (l : List α)
    (a b pivot : Nat) : (partition less l a b pivot).1.Perm l := by
  unfold partition
  dsimp only
  split
  · exact (lSwap_perm _ _ _).trans (lSwap_perm _ _ _)
  · refine (lSwap_perm _ _ _).trans ?_
    refine (partitionLoop_perm less _ _ _ _ _).trans ?_
    exact (lSwap_perm _ _ _).trans (lSwap_perm _ _ _)

theorem partitionEqualLoop_perm [Inhabited α] (less : α → α → Bool) :
    ∀ (fuel : Nat) (l : List α) (i j a : Nat),
      (partitionEqualLoop less fuel l i j a).1.Perm l := by
  intro fuel
  induction fuel with
  | zero => intro l i j a; exact List.Perm.refl l
  | succ n ih =>
    intro l i j a
    unfold partitionEqualLoop
    dsimp only
    split
    · exact List.Perm.refl l
    · exact (ih _ _ _ _).trans (lSwap_perm _ _ _)

theorem partitionEqual_perm [Inhabited α] (less : α → α → Bool) (l : List α)
    (a b pivot : Nat) : (partitionEqual less l a b pivot).1.Perm l :=
  (partitionEqualLoop_perm less b _ (a + 1) (b - 1) a).trans (lSwap_perm l a pivot)

theorem pdqsort_perm [Inhabited α] (less : α → α → Bool) :
    ∀ (fuel : Nat) (l : List α) (a b limit : Nat) (wb wp : Bool),
      (pdqsort less fuel l a b limit wb wp).Perm l := by
  intro fuel
  induction fuel with
  | zero => intro l a b limit wb wp; exact List.Perm.refl l
  | succ n ih =>
    intro l a b limit wb wp
    unfold pdqsort
    lift_lets
    intro length bp l_1 limit_1 cp rv l_2 pivot hint pis l_3 pe pt mid
      alreadyPartitioned leftLen rightLen balanceThreshold nowBalanced l_4 l_5
    have h1 : l_1.Perm l := by
      unfold l_1 bp
      split
      · exact breakPatterns_perm l a b
      · exact List.Perm.refl l
    have h2 : l_2.Perm l_1 := by
      unfold l_2 rv
      split
      · exact reverseRange_perm _ _ _ _
      · exact List.Perm.refl l_1
    have h3 : l_3.Perm l_2 := by
      unfold l_3 pis
      split
      · exact partialInsertionSort_perm less l_2 a b
      · exact List.Perm.refl l_2
    have hpe : pe.1.Perm l_3 := by
      unfold pe
      exact partitionEqual_perm less l_3 a b pivot
    have hpt : pt.1.Perm l_3 := by
      unfold pt
      exact partition_perm less l_3 a b pivot
    have h4 : l_4.Perm pt.1 := by
      unfold l_4
      exact ih _ _ _ _ _ _
    have h5 : l_5.Perm pt.1 := by
      unfold l_5
      exact ih _ _ _ _ _ _
    have hl3 : l_3.Perm l := h3.trans (h2.trans h1)
    split
    · exact insertionSort_perm less l a b
    · split
      · exact heapSort_perm less l a b
      · split
        · exact hl3
        · split
          · exact (ih _ _ _ _ _ _).trans (hpe.trans hl3)
          · split
            · exact (ih _ _ _ _ _ _).trans (h4.trans (hpt.trans hl3))
            · exact (ih _ _ _ _ _ _).trans (h5.trans (hpt.trans hl3))

theorem sortSlice_perm [Inhabited α] (less : α → α → Bool) (l : List α) :
    (sortSlice less l).Perm l :=
  pdqsort_perm less (l.length + 1) l 0 l.length (bitsLen l.length) true true

end GoSort

theorem selectFromRules_backend (dflt sid : String) :
    ∀ l : List RoutingRule,
      (selectFromRules dflt sid l).Backend = dflt ∨
        ∃ r ∈ l, selectFromRules dflt sid l = { Backend := r.Backend, Rule := some r } := by
  intro l
  induction l with
  | nil => left; rfl
  | cons r rest ih =>
    unfold selectFromRules
    split
    · split
      · right; exact ⟨r, List.mem_cons_self r rest, rfl⟩
      · rcases ih with h | ⟨s, hs, hres⟩
        · left; exact h
        · right; exact ⟨s, List.mem_cons_of_mem r hs, hres⟩
    · right; exact ⟨r, List.mem_cons_self r rest, rfl⟩

/-- C1: for every configuration, request and session id, the backend chosen
by `selectBackend` is either the configuration's default backend or the
`Backend` field of some configured rule that matches the request according
to the §4.3 procedure (`ruleMatches`); it is never any other string. -/
theorem C1_selected_backend_provenance (cfg : Config) (req : Request) (sid : String) :
    (selectBackend cfg req sid).Backend = cfg.DefaultBackend ∨
      ∃ r ∈ cfg.Rules, ruleMatches req r = true ∧
        (selectBackend cfg req sid).Backend = r.Backend := by
  unfold selectBackend
  dsimp only
  split
  · left; rfl
  · rcases selectFromRules_backend cfg.DefaultBackend sid
      (sortRulesByPriority (matchingRulesOf cfg req)) with h | ⟨r, hr, hres⟩
    · left; exact h
    · right
      have hr' : r ∈ matchingRulesOf cfg req := by
        exact (List.perm_insertionSort (fun a b => b.Priority ≤ a.Priority)
          (matchingRulesOf cfg req)).mem_iff.mp (by simpa [sortRulesByPriority] using hr)
      have hm := List.mem_filter.mp (by simpa [matchingRulesOf] using hr')
      exact ⟨r, hm.1, hm.2, by rw [hres]⟩

/-- C4: the routing decision is a pure function of the rule list, the
default backend, the request attributes and the session id; in particular
two evaluations on identical requests with the same session id agree, and
the `Debug` flag has no influence on the decision. -/
theorem C4_routing_pure (cfg1 cfg2 : Config) (req1 req2 : Request) (sid : String)
    (hRules : cfg1.Rules = cfg2.Rules)
    (hDefault : cfg1.DefaultBackend = cfg2.DefaultBackend)
    (hreq : req1 = req2) :
    selectBackend cfg1 req1 sid = selectBackend cfg2 req2 sid := by
  subst hreq
  unfold selectBackend matchingRulesOf
  rw [hRules, hDefault]

/-- Witness for C4 at a concrete input: the same 50/50 configuration with
and without debug logging routes a concrete request identically. -/
theorem C4_routing_pure_witness :
    Ex.cfg5050debug.Rules = Ex.cfg5050.Rules ∧
    Ex.cfg5050debug.DefaultBackend = Ex.cfg5050.DefaultBackend ∧
    selectBackend Ex.cfg5050debug Ex.reqGET "session"
      = selectBackend Ex.cfg5050 Ex.reqGET "session" :=
  ⟨rfl, rfl, C4_routing_pure Ex.cfg5050debug Ex.cfg5050 Ex.reqGET Ex.reqGET "session" rfl rfl rfl⟩

/-- C5 counterexample: for `GET /a?x=1` forwarded to `http://echo1`, the
outbound URL built by `constructBackendURL` is `http://echo1/a`, whose query
string is empty — the request's query string `x=1` is not preserved. -/
theorem C5_query_dropped_counterexample :
    Ex.reqQuery.RawQuery = "x=1" ∧
    constructBackendURL Ex.reqQuery "http://echo1" none = "http://echo1/a" ∧
    urlQueryOf (constructBackendURL Ex.reqQuery "http://echo1" none) = "" := by
  refine ⟨rfl, by decide, by decide⟩

/-- C5 amended: the outbound URL is the backend string concatenated with
the (possibly prefix-rewritten) request path, and the request's query
string is dropped — the outbound URL does not depend on it at all. -/
theorem C5_outbound_url_amended (req : Request) (backend : String)
    (rule : Option RoutingRule) (q1 q2 : String) :
    constructBackendURL req backend rule = backend ++ rewrittenPath req rule ∧
    constructBackendURL { req with RawQuery := q1 } backend rule
      = constructBackendURL { req with RawQuery := q2 } backend rule := by
  constructor
  · rfl
  · rfl

unseal Rat.mul Rat.add Rat.sub Rat.inv in
/-- C6 counterexample: `"x"` fails to parse as a float, yet
`compareValues "5" "gt" "x"` is `true` (the failed side is treated as 0),
contradicting the claim that a parse failure forces the result `false`. -/
theorem C6_gt_parse_failure_counterexample :
    goParseFloat "x" = none ∧ goParseFloat "5" = some 5 ∧
    compareValues "5" "gt" "x" = true := by
  refine ⟨by decide, by decide, by decide⟩

/-- C6 amended: the `gt` operator parses both sides with
`strconv.ParseFloat` and discards the error, so a side that fails to parse
is treated as Go's zero value `0`; the result is `actual-or-0 >
expected-or-0`.  (When both sides parse this is the claimed `actual >
expected`; when a side fails the result is not constantly `false`.) -/
theorem C6_gt_zero_substitution_amended (actual expected : String) :
    compareValues actual "gt" expected
      = decide (parseFloatOrZero actual > parseFloatOrZero expected) := by
  rfl

/-- C7: the part_008 header condition check evaluates every value of the
named (possibly multi-valued) header and holds iff at least one value
matches — logical OR across the header's values. -/
theorem C7_header_or_semantics (req : Request) (condition : RuleCondition) :
    V2.checkHeader req condition = true ↔
      ∃ v ∈ req.headerValues condition.Parameter,
        compareValues (goTrimSpace (goToLower v)) condition.Operator
          (goTrimSpace (goToLower condition.Value)) = true := by
  simp [V2.checkHeader, List.any_eq_true]

theorem sortRulesByPriority_sorted (rules : List RoutingRule) :
    (sortRulesByPriority rules).Pairwise (fun a b => b.Priority ≤ a.Priority) := by
  haveI : IsTotal RoutingRule (fun a b => b.Priority ≤ a.Priority) :=
    ⟨fun a b => le_total b.Priority a.Priority⟩
  haveI : IsTrans RoutingRule (fun a b => b.Priority ≤ a.Priority) :=
    ⟨fun a b c hab hbc => le_trans hbc hab⟩
  exact List.sorted_insertionSort _ rules

theorem sortRulesByPriority_perm (rules : List RoutingRule) :
    (sortRulesByPriority rules).Perm rules :=
  List.perm_insertionSort _ rules

/-- C2: when some matching rule `r` has zero (absent) percentage and a
strictly greater priority than every other matching rule, `selectBackend`
selects `r`'s backend outright: the percentage machinery is bypassed and
the session id plays no role (it is universally quantified here and unused
by the proof). -/
theorem C2_priority_bypass (cfg : Config) (req : Request) (sid : String)
    (r : RoutingRule)
    (hr : r ∈ matchingRulesOf cfg req)
    (hp : ¬ r.Percentage > 0)
    (hmax : ∀ s ∈ matchingRulesOf cfg req, s ≠ r → s.Priority < r.Priority) :
    selectBackend cfg req sid = { Backend := r.Backend, Rule := some r } := by
  have hne : matchingRulesOf cfg req ≠ [] := fun h => by simp [h] at hr
  have hperm := sortRulesByPriority_perm (matchingRulesOf cfg req)
  have hsorted := sortRulesByPriority_sorted (matchingRulesOf cfg req)
  unfold selectBackend
  dsimp only
  rw [if_neg hne]
  cases hs : sortRulesByPriority (matchingRulesOf cfg req) with
  | nil =>
    exfalso
    rw [hs] at hperm
    exact hne hperm.symm.eq_nil
  | cons h t =>
    have hhead : h = r := by
      by_contra hne'
      have hh_mem : h ∈ matchingRulesOf cfg req := by
        rw [hs] at hperm
        exact hperm.mem_iff.mp (List.mem_cons_self h t)
      have hlt := hmax h hh_mem hne'
      have hrmem : r ∈ h :: t := by
        rw [hs] at hperm
        exact hperm.mem_iff.mpr hr
      rcases List.mem_cons.mp hrmem with heq | hrt
      · exact hne' heq.symm
      · rw [hs] at hsorted
        have := (List.pairwise_cons.mp hsorted).1 r hrt
        omega
    subst hhead
    unfold selectFromRules
    rw [if_neg hp]

/-- Witness for C2 at a concrete input: a conditionless priority-2
zero-percentage rule to echo2 beats a priority-1 50% rule to echo1 for an
arbitrary concrete session id. -/
theorem C2_priority_bypass_witness :
    (Ex.prioRule 2 "http://echo2") ∈ matchingRulesOf Ex.cfgBypass Ex.reqGET ∧
    selectBackend Ex.cfgBypass Ex.reqGET "any-session"
      = { Backend := "http://echo2", Rule := some (Ex.prioRule 2 "http://echo2") } :=
  ⟨by decide,
   C2_priority_bypass Ex.cfgBypass Ex.reqGET "any-session" (Ex.prioRule 2 "http://echo2")
     (by decide) (by decide) (by decide)⟩

/-- C10: a successful `NewForklift` call returns the caller's configuration
object with `cfg.Rules` permuted in place into descending-priority order,
while `DefaultBackend` and `Debug` (and each rule record, which travels
whole through the permutation) are unchanged. -/
theorem C10_construction_frame (cfg out : Config)
    (h : NewForklift (some cfg) = Except.ok out) :
    out.Rules.Perm cfg.Rules ∧
    out.Rules.Pairwise (fun a b => b.Priority ≤ a.Priority) ∧
    out.DefaultBackend = cfg.DefaultBackend ∧
    out.Debug = cfg.Debug := by
  simp only [NewForklift] at h
  split at h
  · exact absurd h (by simp)
  · split at h
    · exact absurd h (by simp)
    · injection h with h'
      subst h'
      exact ⟨sortRulesByPriority_perm cfg.Rules, sortRulesByPriority_sorted cfg.Rules,
        rfl, rfl⟩

/-- Witness for C10 at a concrete input: constructing the middleware over
the 50/50 configuration succeeds and exhibits the frame properties. -/
theorem C10_construction_frame_witness :
    (NewForklift (some Ex.cfg5050) = Except.ok Ex.cfg5050 ∧
      Ex.cfg5050.Rules.Perm Ex.cfg5050.Rules) ∧
    Ex.cfg5050.Rules.Pairwise (fun a b => b.Priority ≤ a.Priority) ∧
    Ex.cfg5050.DefaultBackend = Ex.cfg5050.DefaultBackend ∧
    Ex.cfg5050.Debug = Ex.cfg5050.Debug := by
  have h : NewForklift (some Ex.cfg5050) = Except.ok Ex.cfg5050 := by rfl
  have := C10_construction_frame Ex.cfg5050 Ex.cfg5050 h
  exact ⟨⟨h, this.1⟩, this.2.1, this.2.2.1, this.2.2.2⟩

set_option maxRecDepth 100000 in
/-- C8 counterexample: thirteen conditionless rules — twelve at priority 1
with backends b0 … b11 in definition order and one at priority 2 — form the
smallest rule count on which Go 1.23's `sort.Slice` (the call at
forklift.go:134 and again at forklift.go:241, embedded faithfully as
`GoSort.sortSlice`) leaves its insertion-sort path.  The equal-priority
tier comes out as b6, b2, b3, b4, b5, b0, …, b1 — not in definition order —
so the claimed stability fails on this input. -/
theorem C8_sort_stability_counterexample :
    ((GoSort.sortSlice goPriorityLess Ex.rules13).filter
        (fun r => r.Priority == 1)).map (fun r => r.Backend)
      = ["b6", "b2", "b3", "b4", "b5", "b0", "b7", "b8", "b9", "b10", "b11", "b1"] ∧
    (GoSort.sortSlice goPriorityLess Ex.rules13).filter (fun r => r.Priority == 1)
      ≠ Ex.rules13.filter (fun r => r.Priority == 1) := by
  constructor
  · decide
  · decide

/-- C8 amended: the priority sort applied by construction and by
`selectBackend` is Go's unstable `sort.Slice`; what holds of every input is
that each priority tier reaches the weighted selector with exactly the same
rules (the tier's multiset is preserved), while the tier's internal order
is implementation-defined and can deviate from definition order once more
than twelve rules are sorted. -/
theorem C8_sort_tier_multiset_amended (rules : List RoutingRule) (p : Int) :
    ((GoSort.sortSlice goPriorityLess rules).filter
        (fun r => r.Priority == p)).Perm
      (rules.filter (fun r => r.Priority == p)) :=
  (GoSort.sortSlice_perm goPriorityLess rules).filter (fun r => r.Priority == p)

theorem b64Index_b64Char : ∀ n < 64, b64Index (b64Char n) = some n := by decide

theorem b64Char_ne_pad : ∀ n < 64, b64Char n ≠ '=' := by decide

theorem encodeGroups_ne_nil : ∀ bs : List Nat, bs ≠ [] → encodeGroups bs ≠ [] := by
  intro bs hne
  match bs with
  | [] => exact absurd rfl hne
  | [b1] => simp [encodeGroups]
  | [b1, b2] => simp [encodeGroups]
  | b1 :: b2 :: b3 :: rest => simp [encodeGroups]

theorem encodeGroups_length :
    ∀ bs : List Nat, (encodeGroups bs).length = 4 * ((bs.length + 2) / 3) := by
  intro bs
  induction bs using encodeGroups.induct with
  | case1 b1 b2 b3 rest ih =>
    simp only [encodeGroups, List.length_cons, ih]
    omega
  | case2 b1 b2 => simp [encodeGroups]
  | case3 b1 => simp [encodeGroups]
  | case4 => simp [encodeGroups]

theorem decodeGroups_encodeGroups :
    ∀ bs : List Nat, (∀ b ∈ bs, b < 256) → decodeGroups (encodeGroups bs) = some bs := by
  intro bs
  induction bs using encodeGroups.induct with
  | case1 b1 b2 b3 rest ih =>
    intro hb
    have h1 : b1 < 256 := hb b1 (by simp)
    have h2 : b2 < 256 := hb b2 (by simp)
    have h3 : b3 < 256 := hb b3 (by simp)
    have i1lt : b1 / 4 < 64 := by omega
    have i2lt : (b1 % 4) * 16 + b2 / 16 < 64 := by omega
    have i3lt : (b2 % 16) * 4 + b3 / 64 < 64 := by omega
    have i4lt : b3 % 64 < 64 := by omega
    have e1 := b64Index_b64Char _ i1lt
    have e2 := b64Index_b64Char _ i2lt
    have e3 := b64Index_b64Char _ i3lt
    have e4 := b64Index_b64Char _ i4lt
    have n3 := b64Char_ne_pad _ i3lt
    have n4 := b64Char_ne_pad _ i4lt
    by_cases hrest : rest = []
    · subst hrest
      simp only [encodeGroups, decodeGroups, e1, e2, e3, e4, n3, n4]
      simp only [if_pos rfl, if_neg, n3, n4, false_and, and_false, if_false]
      simp [List.cons.injEq]
      refine ⟨by omega, by omega, by omega⟩
    · have henc := encodeGroups_ne_nil rest hrest
      have ihr : decodeGroups (encodeGroups rest) = some rest :=
        ih (fun b hbm => hb b (by simp [hbm]))
      simp only [encodeGroups, decodeGroups, e1, e2, e3, e4, ihr, if_neg henc]
      simp [List.cons.injEq]
      refine ⟨by omega, by omega, by omega⟩
  | case2 b1 b2 =>
    intro hb
    have h1 : b1 < 256 := hb b1 (by simp)
    have h2 : b2 < 256 := hb b2 (by simp)
    have i1lt : b1 / 4 < 64 := by omega
    have i2lt : (b1 % 4) * 16 + b2 / 16 < 64 := by omega
    have i3lt : (b2 % 16) * 4 < 64 := by omega
    have e1 := b64Index_b64Char _ i1lt
    have e2 := b64Index_b64Char _ i2lt
    have e3 := b64Index_b64Char _ i3lt
    have n3 := b64Char_ne_pad _ i3lt
    simp only [encodeGroups, decodeGroups, e1, e2, e3, n3]
    simp [List.cons.injEq, n3]
    refine ⟨by omega, by omega⟩
  | case3 b1 =>
    intro hb
    have h1 : b1 < 256 := hb b1 (by simp)
    have i1lt : b1 / 4 < 64 := by omega
    have i2lt : (b1 % 4) * 16 < 64 := by omega
    have e1 := b64Index_b64Char _ i1lt
    have e2 := b64Index_b64Char _ i2lt
    simp only [encodeGroups, decodeGroups, e1, e2]
    simp [List.cons.injEq]
    omega
  | case4 =>
    intro _
    rfl

/-- C9: a session id minted by `generateSessionID` (URL-safe base64 of 32
random bytes) passes `isValidSessionID`, so when it comes back as the
`forklift_id` cookie of the next request `getOrCreateSessionID` returns it
unchanged (ignoring the fresh entropy), and the routing decision with the
returned id equals the decision with the minted id for any configuration
and request attributes. -/
theorem C9_session_roundtrip (entropy : List Nat) (h32 : entropy.length = 32)
    (hb : ∀ b ∈ entropy, b < 256) (req : Request) (fresh : List Nat)
    (hcookie : cookieLookup req "forklift_id" = some (generateSessionID entropy))
    (cfg : Config) (req2 : Request) :
    isValidSessionID (generateSessionID entropy) = true ∧
    getOrCreateSessionID req fresh = generateSessionID entropy ∧
    selectBackend cfg req2 (getOrCreateSessionID req fresh)
      = selectBackend cfg req2 (generateSessionID entropy) := by
  have hdata : (generateSessionID entropy).data = encodeGroups entropy := rfl
  have hlen : (generateSessionID entropy).length = 44 := by
    show (generateSessionID entropy).data.length = 44
    rw [hdata, encodeGroups_length entropy, h32]
  have hdec : decodeGroups (encodeGroups entropy) = some entropy :=
    decodeGroups_encodeGroups entropy hb
  have hvalid : isValidSessionID (generateSessionID entropy) = true := by
    unfold isValidSessionID
    rw [hdata, hlen, hdec]
    simp
  have hnonempty : generateSessionID entropy ≠ "" := by
    intro h
    rw [h] at hlen
    simp at hlen
  have hget : getOrCreateSessionID req fresh = generateSessionID entropy := by
    unfold getOrCreateSessionID
    rw [hcookie]
    simp [hnonempty, hvalid]
  exact ⟨hvalid, hget, by rw [hget]⟩

/-- Witness for C9 at a concrete input: the id minted from 32 zero bytes is
valid, survives the cookie round trip against fresh entropy of 32 one
bytes, and routes identically. -/
theorem C9_session_roundtrip_witness :
    isValidSessionID (generateSessionID Ex.entropy32) = true ∧
    getOrCreateSessionID Ex.reqWithSession (List.replicate 32 1)
      = generateSessionID Ex.entropy32 ∧
    selectBackend Ex.cfg5050 Ex.reqGET
        (getOrCreateSessionID Ex.reqWithSession (List.replicate 32 1))
      = selectBackend Ex.cfg5050 Ex.reqGET (generateSessionID Ex.entropy32) :=
  C9_session_roundtrip Ex.entropy32 (by decide) (by decide) Ex.reqWithSession
    (List.replicate 32 1) (by rfl) Ex.cfg5050 Ex.reqGET

theorem mem_getLastD : ∀ (l : List String) (d : String), l ≠ [] → l.getLastD d ∈ l
  | [], _, h => absurd rfl h
  | [a], _, _ => by simp [List.getLastD]
  | a :: b :: t, d, _ => by
    have h := mem_getLastD (b :: t) d (by simp)
    have he : (a :: b :: t).getLastD d = (b :: t).getLastD d := by
      simp [List.getLastD]
    rw [he]
    exact List.mem_cons_of_mem a h

theorem findD_sentinel_mem (keys : List String) (p : String → Bool) (hk : keys ≠ []) :
    (if (keys.find? p).getD "" = "" then keys.getLastD ""
      else (keys.find? p).getD "") ∈ keys := by
  split
  · exact mem_getLastD _ _ hk
  · next h =>
    cases hf : keys.find? p with
    | none => rw [hf] at h; simp at h
    | some b =>
      simpa using List.mem_of_find?_eq_some hf

theorem selectByHash_mem_keys (sid : String) (m : List RoutingRule) (hm : m ≠ []) :
    V2.selectBackendByPercentageAndRuleHash sid m ∈ V2.backendKeysSorted m := by
  have hkeysne : V2.backendKeysSorted m ≠ [] := by
    obtain ⟨r, hr⟩ := List.exists_mem_of_ne_nil m hm
    have h1 : r.Backend ∈ m.map (fun r => r.Backend) := List.mem_map_of_mem _ hr
    have h2 : r.Backend ∈ (m.map (fun r => r.Backend)).dedup := List.mem_dedup.mpr h1
    have h3 : r.Backend ∈ V2.backendKeysSorted m :=
      (List.perm_insertionSort _ _).mem_iff.mpr h2
    exact List.ne_nil_of_mem h3
  unfold V2.selectBackendByPercentageAndRuleHash V2.selectBackendFromRanges
  dsimp only
  exact findD_sentinel_mem _ _ hkeysne

theorem mem_of_backendKeysSorted (m : List RoutingRule) (b : String)
    (hb : b ∈ V2.backendKeysSorted m) : ∃ r ∈ m, r.Backend = b := by
  have h1 := (List.perm_insertionSort _ _).mem_iff.mp hb
  have h2 := List.mem_dedup.mp h1
  obtain ⟨r, hr, he⟩ := List.mem_map.mp h2
  exact ⟨r, hr, he⟩

/-- C3 amended: when the matching rules are non-empty, all carry positive
percentages tiling `[0, 100)`, and — the amendment — every matching rule's
backend is a non-empty string, the grouped selector returns the backend of
one of the matching rules (with the first rule of that backend's group),
that backend being the one picked by the cumulative-range walk
(`selectBackendFromRanges`: first backend in ascending order whose upper
bound is at least the scaled hash point, else the last); the default-backend
fallback branch is not taken. -/
theorem C3_weighted_selector_amended (cfg : Config) (req : Request) (sid : String)
    (hne : V2.matchingRulesOf cfg req ≠ [])
    (hpos : ∀ r ∈ V2.matchingRulesOf cfg req, 0 < r.Percentage)
    (hsum : ((V2.matchingRulesOf cfg req).map (fun r => r.Percentage)).sum = 100)
    (hbne : ∀ r ∈ V2.matchingRulesOf cfg req, r.Backend ≠ "") :
    ∃ r ∈ V2.matchingRulesOf cfg req,
      V2.selectBackend cfg req sid
        = { Backend := r.Backend,
            Rule := (V2.backendRules (sortRulesByPriority (V2.matchingRulesOf cfg req))
              r.Backend).head? } ∧
      r.Backend = V2.selectBackendByPercentageAndRuleHash sid
        (sortRulesByPriority (V2.matchingRulesOf cfg req)) ∧
      (V2.selectBackend cfg req sid).Rule ≠ none := by
  have hmperm := sortRulesByPriority_perm (V2.matchingRulesOf cfg req)
  have hmne : sortRulesByPriority (V2.matchingRulesOf cfg req) ≠ [] := by
    intro h
    rw [h] at hmperm
    exact hne hmperm.symm.eq_nil
  have hsel := selectByHash_mem_keys sid (sortRulesByPriority (V2.matchingRulesOf cfg req)) hmne
  obtain ⟨r0, hr0m, hr0b⟩ := mem_of_backendKeysSorted _ _ hsel
  have hr0match : r0 ∈ V2.matchingRulesOf cfg req := hmperm.mem_iff.mp hr0m
  have hselne : V2.selectBackendByPercentageAndRuleHash sid
      (sortRulesByPriority (V2.matchingRulesOf cfg req)) ≠ "" := by
    rw [← hr0b]
    exact hbne r0 hr0match
  have hbrmem : r0 ∈ V2.backendRules (sortRulesByPriority (V2.matchingRulesOf cfg req))
      (V2.selectBackendByPercentageAndRuleHash sid
        (sortRulesByPriority (V2.matchingRulesOf cfg req))) := by
    unfold V2.backendRules
    exact List.mem_filter.mpr ⟨hr0m, by simp [hr0b]⟩
  have hbrne : V2.backendRules (sortRulesByPriority (V2.matchingRulesOf cfg req))
      (V2.selectBackendByPercentageAndRuleHash sid
        (sortRulesByPriority (V2.matchingRulesOf cfg req))) ≠ [] :=
    List.ne_nil_of_mem hbrmem
  have hres : V2.selectBackend cfg req sid
      = { Backend := V2.selectBackendByPercentageAndRuleHash sid
            (sortRulesByPriority (V2.matchingRulesOf cfg req)),
          Rule := (V2.backendRules (sortRulesByPriority (V2.matchingRulesOf cfg req))
            (V2.selectBackendByPercentageAndRuleHash sid
              (sortRulesByPriority (V2.matchingRulesOf cfg req)))).head? } := by
    unfold V2.selectBackend
    dsimp only
    rw [if_neg hne, if_pos ⟨hselne, hbrne⟩]
  obtain ⟨rh, hrh⟩ : ∃ rh, (V2.backendRules (sortRulesByPriority (V2.matchingRulesOf cfg req))
      (V2.selectBackendByPercentageAndRuleHash sid
        (sortRulesByPriority (V2.matchingRulesOf cfg req)))).head? = some rh := by
    cases hb : (V2.backendRules (sortRulesByPriority (V2.matchingRulesOf cfg req))
        (V2.selectBackendByPercentageAndRuleHash sid
          (sortRulesByPriority (V2.matchingRulesOf cfg req)))) with
    | nil => exact absurd hb hbrne
    | cons a t => exact ⟨a, rfl⟩
  have hrhmem : rh ∈ V2.backendRules (sortRulesByPriority (V2.matchingRulesOf cfg req))
      (V2.selectBackendByPercentageAndRuleHash sid
        (sortRulesByPriority (V2.matchingRulesOf cfg req))) := by
    have := List.mem_of_mem_head? (by rw [hrh]; exact rfl)
    exact this
  have hrhf : rh ∈ sortRulesByPriority (V2.matchingRulesOf cfg req) ∧
      rh.Backend = V2.selectBackendByPercentageAndRuleHash sid
        (sortRulesByPriority (V2.matchingRulesOf cfg req)) := by
    simpa [V2.backendRules] using hrhmem
  have hrhb := hrhf.2
  refine ⟨rh, hmperm.mem_iff.mp hrhf.1, ?_, hrhb, ?_⟩
  · rw [hres, hrhb]
  · rw [hres]
    simp [hrh]

set_option maxRecDepth 1000000 in
unseal Rat.mul Rat.add Rat.sub Rat.inv in
/-- C3 counterexample, two parts.  Part 1: under the 50/50 split whose
first rule routes to the empty backend string, session id `"b"` hashes into
the empty backend's range — the first backend in cumulative order whose
upper bound is at least the scaled hash point is `""`, the backend of a
matching rule — yet the post-loop overwrite at part_008:302-304 replaces it
with the *last* sorted backend, so the selector returns `http://echo2`
(with its rule), not the first-hit backend: the claim's "first backend in
cumulative order whose upper bound is at least x" characterisation is
false.  Part 2: when every matching rule routes to the empty backend
string, the last sorted backend is itself `""`, the caller's
`selected != ""` guard fails, and the default backend is returned although
the matching rules are non-empty with positive percentages tiling
`[0, 100)`: "never returns defaultBackend" is false. -/
theorem C3_range_selector_counterexample :
    (V2.matchingRulesOf Ex.cfgEmptyBackend Ex.reqGET ≠ [] ∧
     (∀ r ∈ V2.matchingRulesOf Ex.cfgEmptyBackend Ex.reqGET, 0 < r.Percentage) ∧
     ((V2.matchingRulesOf Ex.cfgEmptyBackend Ex.reqGET).map
         (fun r => r.Percentage)).sum = 100 ∧
     (V2.backendKeysSorted Ex.sortedEmptyMatching).find? (fun b =>
         decide (V2.calculateHash "b" Ex.sortedEmptyMatching *
             (V2.totalPercentage Ex.sortedEmptyMatching / 100)
           ≤ V2.rangeOf (V2.createCumulativeRanges Ex.sortedEmptyMatching) b))
       = some "" ∧
     (∃ r ∈ V2.matchingRulesOf Ex.cfgEmptyBackend Ex.reqGET, r.Backend = "") ∧
     V2.selectBackend Ex.cfgEmptyBackend Ex.reqGET "b"
       = { Backend := "http://echo2",
           Rule := some (Ex.halfRule "http://echo2" "group2") }) ∧
    (V2.matchingRulesOf Ex.cfgAllEmpty Ex.reqGET ≠ [] ∧
     (∀ r ∈ V2.matchingRulesOf Ex.cfgAllEmpty Ex.reqGET, 0 < r.Percentage) ∧
     ((V2.matchingRulesOf Ex.cfgAllEmpty Ex.reqGET).map
         (fun r => r.Percentage)).sum = 100 ∧
     V2.selectBackend Ex.cfgAllEmpty Ex.reqGET "a"
       = { Backend := "http://default", Rule := none }) := by
  refine ⟨⟨by decide, by decide, by decide, by decide, by decide, by decide⟩,
    by decide, by decide, by decide, by decide⟩

set_option maxRecDepth 1000000 in
unseal Rat.mul Rat.add Rat.sub Rat.inv in
/-- Witness for the amended C3 at a concrete input: the 50/50
echo1/echo2 split with session id `"a"`. -/
theorem C3_weighted_selector_amended_witness :
    ∃ r ∈ V2.matchingRulesOf Ex.cfg5050 Ex.reqGET,
      V2.selectBackend Ex.cfg5050 Ex.reqGET "a"
        = { Backend := r.Backend,
            Rule := (V2.backendRules
              (sortRulesByPriority (V2.matchingRulesOf Ex.cfg5050 Ex.reqGET))
              r.Backend).head? } ∧
      r.Backend = V2.selectBackendByPercentageAndRuleHash "a"
        (sortRulesByPriority (V2.matchingRulesOf Ex.cfg5050 Ex.reqGET)) ∧
      (V2.selectBackend Ex.cfg5050 Ex.reqGET "a").Rule ≠ none :=
  C3_weighted_selector_amended Ex.cfg5050 Ex.reqGET "a" (by decide) (by decide)
    (by decide) (by decide)
